import Mathlib

/-!
Verification of the `MyMongodb` accessor (src/MyMongodb.py) against its
natural-language specification.  The Python class is shallowly embedded:
pure helpers become Lean functions, each database-mutating method becomes a
function from the collection's record list (the server state relevant to the
claim) to an outcome structure recording the new state, driver result counts
and the logging side effects.  The external MongoDB driver/server behaviour
that the methods delegate to (filter matching, skip/limit, update operators,
the non-empty check of `insert_many`, `%`-style log formatting) is modelled
from its documented contract as restated by the spec, since the driver is an
external collaborator outside the repository.
-/

set_option autoImplicit false

namespace MyMongodb

/-- Dynamically-typed field value of a document record (text, integer or
boolean are the shapes exercised by this repository). -/
inductive Value where
  | str (s : String)
  | int (n : Int)
  | bool (b : Bool)
deriving DecidableEq, Repr

/-- A record is a mapping from field names to values, kept as an association
list; structural equality of records is decidable. -/
abbrev Record := List (String × Value)

/-- Truthiness of an optional Python string: `None` and the empty string are
falsy, every other string is truthy (Python `not s`). -/
def pyTruthy : Option String → Bool
  | none => false
  | some s => !(decide (s = ""))

/-! ### remove_duplicates (src/MyMongodb.py lines 52-58)

The Python loop `res = []; for i in ori_data: if i not in res: res.append(i)`
is embedded as a tail recursion on the input with the accumulated `res`. -/

/-- Loop body of `remove_duplicates`: walk the remaining input, appending each
element not already present in the accumulated result. -/
def removeDupsAux {α : Type _} [DecidableEq α] (res : List α) : List α → List α
  | [] => res
  | i :: rest => if i ∈ res then removeDupsAux res rest else removeDupsAux (res ++ [i]) rest

/-- Embedding of the static method `remove_duplicates`. -/
def removeDuplicates {α : Type _} [DecidableEq α] (ori_data : List α) : List α :=
  removeDupsAux [] ori_data

/-- The elements that the loop appends after the accumulator already holds
`res`: the difference list produced by `removeDupsAux res`. -/
def newElems {α : Type _} [DecidableEq α] (res : List α) : List α → List α
  | [] => []
  | i :: rest => if i ∈ res then newElems res rest else i :: newElems (res ++ [i]) rest

lemma removeDupsAux_eq_append {α : Type _} [DecidableEq α] :
    ∀ (l res : List α), removeDupsAux res l = res ++ newElems res l := by
  intro l
  induction l with
  | nil => intro res; simp [removeDupsAux, newElems]
  | cons i rest ih =>
    intro res
    by_cases h : i ∈ res
    · simp [removeDupsAux, newElems, h, ih]
    · simp [removeDupsAux, newElems, h, ih (res ++ [i])]

lemma removeDuplicates_eq_newElems {α : Type _} [DecidableEq α] (l : List α) :
    removeDuplicates l = newElems [] l := by
  simp [removeDuplicates, removeDupsAux_eq_append]

lemma mem_newElems {α : Type _} [DecidableEq α] :
    ∀ (l res : List α) (a : α), a ∈ newElems res l ↔ (a ∈ l ∧ a ∉ res) := by
  intro l
  induction l with
  | nil => intro res a; simp [newElems]
  | cons i rest ih =>
    intro res a
    by_cases h : i ∈ res
    · simp only [newElems, if_pos h, ih, List.mem_cons]
      constructor
      · rintro ⟨ha, hna⟩; exact ⟨Or.inr ha, hna⟩
      · rintro ⟨ha | ha, hna⟩
        · subst ha; exact absurd h hna
        · exact ⟨ha, hna⟩
    · simp only [newElems, if_neg h, List.mem_cons, ih, List.mem_append,
        List.mem_singleton]
      constructor
      · rintro (rfl | ⟨ha, hna⟩)
        · exact ⟨Or.inl rfl, h⟩
        · exact ⟨Or.inr ha, fun hc => hna (Or.inl hc)⟩
      · rintro ⟨rfl | ha, hna⟩
        · exact Or.inl rfl
        · by_cases hai : a = i
          · exact Or.inl hai
          · exact Or.inr ⟨ha, by tauto⟩

lemma nodup_newElems {α : Type _} [DecidableEq α] :
    ∀ (l res : List α), (newElems res l).Nodup := by
  intro l
  induction l with
  | nil => intro res; simp [newElems]
  | cons i rest ih =>
    intro res
    by_cases h : i ∈ res
    · simpa [newElems, h] using ih res
    · simp only [newElems, if_neg h, List.nodup_cons]
      refine ⟨fun hc => ?_, ih (res ++ [i])⟩
      rcases (mem_newElems rest (res ++ [i]) i).1 hc with ⟨-, hni⟩
      exact hni (by simp)

lemma newElems_sublist {α : Type _} [DecidableEq α] :
    ∀ (l res : List α), (newElems res l).Sublist l := by
  intro l
  induction l with
  | nil => intro res; simp [newElems]
  | cons i rest ih =>
    intro res
    by_cases h : i ∈ res
    · simpa [newElems, h] using (ih res).trans (List.sublist_cons_self i rest)
    · simpa [newElems, h] using List.Sublist.cons₂ i (ih (res ++ [i]))

lemma newElems_congr {α : Type _} [DecidableEq α] :
    ∀ (l res₁ res₂ : List α), (∀ x, x ∈ res₁ ↔ x ∈ res₂) →
      newElems res₁ l = newElems res₂ l := by
  intro l
  induction l with
  | nil => intro res₁ res₂ _; simp [newElems]
  | cons i rest ih =>
    intro res₁ res₂ hmem
    by_cases h : i ∈ res₁
    · simp [newElems, h, (hmem i).1 h, ih res₁ res₂ hmem]
    · have h₂ : i ∉ res₂ := fun hc => h ((hmem i).2 hc)
      simp only [newElems, if_neg h, if_neg h₂]
      refine congrArg (i :: ·) (ih (res₁ ++ [i]) (res₂ ++ [i]) ?_)
      intro x; simp [hmem x]

/-- Removal of every occurrence of `a` from a list, used to phrase the
specification-side first-occurrence deduplication. -/
def eraseAll {α : Type _} [DecidableEq α] (a : α) : List α → List α
  | [] => []
  | x :: rest => if x = a then eraseAll a rest else x :: eraseAll a rest

lemma eraseAll_length_le {α : Type _} [DecidableEq α] (a : α) :
    ∀ l : List α, (eraseAll a l).length ≤ l.length := by
  intro l
  induction l with
  | nil => simp [eraseAll]
  | cons x rest ih =>
    by_cases h : x = a
    · simp only [eraseAll, if_pos h, List.length_cons]
      exact le_trans ih (Nat.le_succ _)
    · simp only [eraseAll, if_neg h, List.length_cons]
      exact Nat.succ_le_succ ih

lemma newElems_eraseAll {α : Type _} [DecidableEq α] :
    ∀ (l res : List α) (a : α),
      newElems (res ++ [a]) l = newElems res (eraseAll a l) := by
  intro l
  induction l with
  | nil => intro res a; simp [newElems, eraseAll]
  | cons i rest ih =>
    intro res a
    by_cases hia : i = a
    · subst hia
      have h1 : i ∈ res ++ [i] := by simp
      simp only [eraseAll, if_pos rfl, newElems, if_pos h1]
      exact ih res i
    · by_cases h : i ∈ res
      · have h1 : i ∈ res ++ [a] := by simp [h]
        simp only [eraseAll, if_neg hia, newElems, if_pos h1, if_pos h]
        exact ih res a
      · have h1 : i ∉ res ++ [a] := by simp [h, hia]
        simp only [eraseAll, if_neg hia, newElems, if_neg h1, if_neg h]
        refine congrArg (i :: ·) ?_
        calc newElems (res ++ [a] ++ [i]) rest
            = newElems (res ++ [i] ++ [a]) rest :=
              newElems_congr rest _ _ (fun x => by simp; tauto)
          _ = newElems (res ++ [i]) (eraseAll a rest) := ih (res ++ [i]) a

/-- Specification-side deduplication, written from the spec's words: the
output retains only the first occurrence of each structurally-distinct
element, preserving original relative order (keep the head, erase its later
duplicates, recurse). -/
def firstOccurrences {α : Type _} [DecidableEq α] : List α → List α
  | [] => []
  | a :: rest => a :: firstOccurrences (eraseAll a rest)
termination_by l => l.length
decreasing_by
  simp only [List.length_cons]
  exact Nat.lt_succ_of_le (eraseAll_length_le _ _)

lemma newElems_nil_eq_firstOccurrences {α : Type _} [DecidableEq α] :
    ∀ (n : Nat) (l : List α), l.length ≤ n → newElems [] l = firstOccurrences l := by
  intro n
  induction n with
  | zero =>
    intro l h
    have : l = [] := List.eq_nil_of_length_eq_zero (Nat.le_zero.1 h)
    subst this; simp [newElems, firstOccurrences]
  | succ n ih =>
    intro l h
    match l with
    | [] => simp [newElems, firstOccurrences]
    | a :: rest =>
      have hlen : (eraseAll a rest).length ≤ n :=
        le_trans (eraseAll_length_le _ _) (Nat.le_of_succ_le_succ h)
      have step : newElems ([] : List α) (a :: rest)
          = a :: newElems [] (eraseAll a rest) := by
        have h0 : a ∉ ([] : List α) := List.not_mem_nil a
        simp only [newElems, if_neg h0]
        exact congrArg (a :: ·) (newElems_eraseAll rest [] a)
      rw [step, ih _ hlen, firstOccurrences]

theorem removeDuplicates_eq_firstOccurrences {α : Type _} [DecidableEq α] (l : List α) :
    removeDuplicates l = firstOccurrences l := by
  rw [removeDuplicates_eq_newElems]
  exact newElems_nil_eq_firstOccurrences l.length l (le_refl _)

/-! ### Filters, cursors and find_data (src/MyMongodb.py lines 76-109)

`find_data` builds a one-field filter dict and hands it to the external
driver.  The driver/server side (filter matching, skip, limit, cursor
consumption and `Cursor.clone`) is modelled from its documented contract as
restated by the spec. -/

/-- Condition part of a one-field filter: either an exact value (the
`{key: value}` dict) or an operator applied to a value (the
`{key: {operator: value}}` dict). -/
inductive FilterCond where
  | eqv (v : Value)
  | op (tok : String) (v : Value)
deriving DecidableEq, Repr

/-- One-field filter dict as built by `find_data` (and passed by callers of
`delete`/`update`). -/
structure Filter where
  key : String
  cond : FilterCond
deriving DecidableEq, Repr

/-- Value stored under field `k` of record `r`, if any. -/
def lookupField (r : Record) (k : String) : Option Value :=
  List.lookup k r

/-- Modelled from the spec: evaluation of a comparison operator token by the
external server on a record's field value (`field` is the stored value, `v`
the right-hand side of the operator expression); integer comparisons for the
ordering operators, inequality for `$ne`, and no match for an unsupported
token or a type mismatch. -/
def evalOp (tok : String) (field : Option Value) (v : Value) : Bool :=
  if tok = "$gt" then
    match field, v with
    | some (Value.int a), Value.int b => decide (b < a)
    | _, _ => false
  else if tok = "$lt" then
    match field, v with
    | some (Value.int a), Value.int b => decide (a < b)
    | _, _ => false
  else if tok = "$gte" then
    match field, v with
    | some (Value.int a), Value.int b => decide (b ≤ a)
    | _, _ => false
  else if tok = "$lte" then
    match field, v with
    | some (Value.int a), Value.int b => decide (a ≤ b)
    | _, _ => false
  else if tok = "$ne" then
    decide (field ≠ some v)
  else false

/-- Modelled from the spec: whether a record satisfies a one-field filter
(exact field-value match, or operator condition on the field). -/
def matchesFilter (f : Filter) (r : Record) : Bool :=
  match f.cond with
  | FilterCond.eqv v => decide (lookupField r f.key = some v)
  | FilterCond.op tok v => evalOp tok (lookupField r f.key) v

/-- Modelled from the spec: a server-side cursor over the collection `coll`
for a query with filter, limit and skip; `pos` is how many of its results
have already been consumed (a pymongo cursor is forward-only). -/
structure Cursor where
  coll : List Record
  filter : Filter
  limitN : Nat
  skipN : Nat
  pos : Nat
deriving DecidableEq, Repr

/-- Modelled from the spec: the full result sequence of the query a cursor
stands for.  The server applies skip before limit regardless of the order in
which the `.limit(...)` and `.skip(...)` cursor modifiers are chained. -/
def Cursor.results (c : Cursor) : List Record :=
  ((c.coll.filter (matchesFilter c.filter)).drop c.skipN).take c.limitN

/-- Records a forward-only cursor still yields, given how many it has already
yielded. -/
def Cursor.remaining (c : Cursor) : List Record :=
  c.results.drop c.pos

/-- Modelled from the spec: `Cursor.clone` restarts the query from the
beginning (pymongo `Cursor.clone`). -/
def Cursor.clone (c : Cursor) : Cursor :=
  { c with pos := 0 }

/-- Filter dict built by `find_data` (src lines 104-108): `{key: value}` when
the optional operator is absent (Python-falsy), `{key: {optional: value}}`
otherwise. -/
def buildFilter (key : String) (value : Value) (optional : Option String) : Filter :=
  if pyTruthy optional = false then ⟨key, FilterCond.eqv value⟩
  else ⟨key, FilterCond.op (optional.getD "") value⟩

/-- Embedding of `find_data` (src lines 76-109): build the filter, issue the
query with limit and skip, then compute the returned count as
`len(list(results))` — which consumes the very cursor that is returned, so
the cursor comes back with every result already yielded. -/
def find_data (coll : List Record) (key : String) (value : Value)
    (optional : Option String) (limit_num : Nat) (skip_num : Nat) :
    Cursor × Nat :=
  let c : Cursor := ⟨coll, buildFilter key value optional, limit_num, skip_num, 0⟩
  let listed := c.remaining
  ({ c with pos := c.pos + listed.length }, listed.length)

/-- Record `student1` from the source's usage example (John, age 21). -/
def student1 : Record :=
  [("id", Value.str "20170102"), ("name", Value.str "John"),
   ("age", Value.int 21), ("gender", Value.str "male")]

/-- Record `student2` from the source's usage example (Sally, age 19). -/
def student2 : Record :=
  [("id", Value.str "20170103"), ("name", Value.str "Sally"),
   ("age", Value.int 19), ("gender", Value.str "female")]

/-- C1: for every ordered input sequence (possibly empty, possibly containing
structural duplicates), `remove_duplicates` returns a sequence of length at
most the input length, without duplicates, containing exactly the elements of
the input, that is a subsequence of the input (original relative order
preserved), and that coincides with the specification-side first-occurrence
deduplication. -/
theorem C1_remove_duplicates_dedups {α : Type _} [DecidableEq α] (l : List α) :
    (removeDuplicates l).length ≤ l.length ∧
    (removeDuplicates l).Nodup ∧
    (∀ a, a ∈ removeDuplicates l ↔ a ∈ l) ∧
    (removeDuplicates l).Sublist l ∧
    removeDuplicates l = firstOccurrences l := by
  have hsub : (removeDuplicates l).Sublist l := by
    rw [removeDuplicates_eq_newElems]; exact newElems_sublist l []
  refine ⟨hsub.length_le, ?_, ?_, hsub, removeDuplicates_eq_firstOccurrences l⟩
  · rw [removeDuplicates_eq_newElems]; exact nodup_newElems l []
  · intro a
    rw [removeDuplicates_eq_newElems]
    simpa using mem_newElems l [] a

/-- C2: after inserting the John (age 21) and Sally (age 19) records,
`find_data(key='age', optional='$gt', value=20)` does return a count of 1 and
a restartable cursor whose query matches exactly the John record — but the
count is computed by `len(list(results))`, which consumes the returned
forward-only cursor, so the returned sequence itself yields no records at
all; only its clone yields the John record.  This contradicts the claim (and
the method's own docstring, which says the returned iterator can be looped
over). -/
theorem C2_find_data_returns_exhausted_cursor :
    (find_data [student1, student2] "age" (Value.int 20) (some "$gt") 99999 0).2 = 1 ∧
    ((find_data [student1, student2] "age" (Value.int 20) (some "$gt") 99999 0).1).results
      = [student1] ∧
    ((find_data [student1, student2] "age" (Value.int 20) (some "$gt") 99999 0).1).remaining
      = [] ∧
    (((find_data [student1, student2] "age" (Value.int 20) (some "$gt") 99999 0).1).clone).remaining
      = [student1] :=
  ⟨rfl, rfl, rfl, rfl⟩

/-- Record number `n` of the five-record pagination scenario of the spec (all
five match the query `age == 20`; natural server order is insertion order). -/
def rankedStudent (n : Int) : Record :=
  [("id", Value.int n), ("age", Value.int 20)]

/-- Five matching records in natural server order. -/
def fiveStudents : List Record :=
  [rankedStudent 1, rankedStudent 2, rankedStudent 3, rankedStudent 4, rankedStudent 5]

/-- C5: for every query issued by `find_data` the skip count is applied
before the result-count limit, and the returned count equals the number of
records the query yields under that skip and limit; on a 5-matching-record
set, `limit_num=2, skip_num=1` yields exactly the records ranked 2nd and 3rd
in natural server order, with count 2. -/
theorem C5_skip_applied_before_limit :
    (∀ (coll : List Record) (key : String) (v : Value) (optional : Option String)
        (lim sk : Nat),
        (find_data coll key v optional lim sk).1.results
          = ((coll.filter (matchesFilter (buildFilter key v optional))).drop sk).take lim ∧
        (find_data coll key v optional lim sk).2
          = (find_data coll key v optional lim sk).1.results.length) ∧
    (find_data fiveStudents "age" (Value.int 20) none 2 1).1.results
      = [rankedStudent 2, rankedStudent 3] ∧
    (find_data fiveStudents "age" (Value.int 20) none 2 1).2 = 2 := by
  exact ⟨fun coll key v optional lim sk => ⟨rfl, rfl⟩, rfl, rfl⟩

/-- C6: `find_data` builds the single-field filter `{key: value}` when no
operator token is supplied and `{key: {operator: value}}` when one is
supplied; consequently (within the effectively-unbounded default limit)
`find(key='age', value=n)` returns exactly the records whose age field equals
`n`, and `find(key='age', value=n, optional='$gt')` exactly those whose age
field exceeds `n`. -/
theorem C6_find_filter_construction (coll : List Record) (key : String) (v : Value)
    (op : String) (lim sk : Nat) (hop : op ≠ "") (hlen : coll.length ≤ 99999) :
    (find_data coll key v none lim sk).1.filter = ⟨key, FilterCond.eqv v⟩ ∧
    (find_data coll key v (some op) lim sk).1.filter = ⟨key, FilterCond.op op v⟩ ∧
    (∀ n : Int, (find_data coll "age" (Value.int n) none 99999 0).1.results
        = coll.filter (fun r => decide (lookupField r "age" = some (Value.int n)))) ∧
    (∀ n : Int, (find_data coll "age" (Value.int n) (some "$gt") 99999 0).1.results
        = coll.filter (fun r =>
            match lookupField r "age" with
            | some (Value.int a) => decide (n < a)
            | _ => false)) := by
  refine ⟨rfl, ?_, ?_, ?_⟩
  · show buildFilter key v (some op) = ⟨key, FilterCond.op op v⟩
    simp [buildFilter, pyTruthy, hop]
  · intro n
    show ((coll.filter (matchesFilter ⟨"age", FilterCond.eqv (Value.int n)⟩)).drop 0).take 99999
        = _
    rw [List.drop_zero,
      List.take_of_length_le (le_trans (List.length_filter_le _ _) hlen)]
    rfl
  · intro n
    show ((coll.filter (matchesFilter ⟨"age", FilterCond.op "$gt" (Value.int n)⟩)).drop 0).take 99999
        = _
    rw [List.drop_zero,
      List.take_of_length_le (le_trans (List.length_filter_le _ _) hlen)]
    have hfun : (matchesFilter ⟨"age", FilterCond.op "$gt" (Value.int n)⟩)
        = (fun r : Record =>
            match lookupField r "age" with
            | some (Value.int a) => decide (n < a)
            | _ => false) := by
      funext r
      show evalOp "$gt" (lookupField r "age") (Value.int n) = _
      rcases lookupField r "age" with _ | w
      · simp [evalOp]
      · cases w <;> simp [evalOp]
    rw [hfun]

/-- Witness for C6 at the concrete two-student collection from the source's
usage example, with the `$gt` operator actually used there. -/
theorem C6_find_filter_construction_witness :
    (find_data [student1, student2] "age" (Value.int 20) (some "$gt") 99999 0).1.results
      = List.filter (fun r =>
          match lookupField r "age" with
          | some (Value.int a) => decide ((20 : Int) < a)
          | _ => false) [student1, student2] :=
  (C6_find_filter_construction [student1, student2] "age" (Value.int 20) "$gt" 99999 0
    (by decide) (by decide)).2.2.2 20

/-! ### Logging (src/MyMongodb.py uses `%`-style lazy formatting)

A `logging.info(fmt, args...)` call emits a line only if the `%d`
placeholders of the format string can be filled from the supplied arguments;
on an argument-count mismatch the logging library swallows the formatting
error and the intended line is never emitted.  That contract is modelled by
`logRender`. -/

/-- Number of `%d` placeholders in a format string's character list. -/
def countPD : List Char → Nat
  | [] => 0
  | '%' :: 'd' :: rest => countPD rest + 1
  | _ :: rest => countPD rest

/-- Substitution of natural-number arguments for successive `%d`
placeholders. -/
def renderPD : List Char → List Nat → List Char
  | [], _ => []
  | '%' :: 'd' :: rest, a :: as => (toString a).data ++ renderPD rest as
  | c :: rest, as => c :: renderPD rest as

/-- Modelled from the logging contract: the emitted line, or `none` when the
argument count does not match the placeholder count (the logging layer
swallows the formatting error and emits nothing). -/
def logRender (fmt : String) (args : List Nat) : Option String :=
  if countPD fmt.data = args.length then some ⟨renderPD fmt.data args⟩ else none

/-- Success format string of `delete` (src line 148), one `%d`, one argument
supplied. -/
def deleteInfoFmt : String := "Successfully matched and deleted %d data."

/-- Success format string of `update` (src line 165): two `%d` placeholders,
but the source supplies only `results.matched_count`. -/
def updateInfoFmt : String := "Successfully matched %d data and updated %d data."

/-! ### Construction (src/MyMongodb.py lines 23-50) -/

/-- State held by a successfully constructed accessor that name validation
can influence: the database and collection names it is bound to. -/
structure Accessor where
  database : String
  collection : String
deriving DecidableEq, Repr

/-- Observable outcome of `__init__`: the constructed accessor or the raised
`KeyError`, plus the logging side effects.  `dbNames` and `collNames` stand
for the server's `list_database_names()` / `list_collection_names()`
answers. -/
structure InitOutcome where
  result : Except String Accessor
  errorLogged : Bool
  dbWarning : Bool
  collWarning : Bool
deriving Repr

/-- Embedding of `__init__` (src lines 23-50): raise `KeyError` (after an
error log) when the database or collection name is Python-falsy; otherwise
warn about a missing database when it is NOT in the server's list (line 41),
and warn about a missing collection when it IS in the database's list — the
source's line 46 tests `collection in self.db.list_collection_names()`,
with a warning message that claims non-existence. -/
def initAccessor (database collection : Option String)
    (dbNames collNames : List String) : InitOutcome :=
  if !(pyTruthy database) || !(pyTruthy collection) then
    { result := Except.error "KeyError", errorLogged := true,
      dbWarning := false, collWarning := false }
  else
    let db := database.getD ""
    let coll := collection.getD ""
    { result := Except.ok ⟨db, coll⟩
      errorLogged := false
      dbWarning := !(dbNames.contains db)
      collWarning := collNames.contains coll }

/-- C9: construction fails with the configuration error (Python `KeyError`),
logging an error line and returning no accessor, exactly when the database
name or the collection name is missing or empty; with both names non-empty
the name validation lets construction succeed. -/
theorem C9_init_validates_names (database collection : Option String)
    (dbNames collNames : List String) :
    ((pyTruthy database = false ∨ pyTruthy collection = false) →
      (initAccessor database collection dbNames collNames).result
          = Except.error "KeyError" ∧
      (initAccessor database collection dbNames collNames).errorLogged = true) ∧
    (pyTruthy database = true → pyTruthy collection = true →
      (initAccessor database collection dbNames collNames).result
          = Except.ok ⟨database.getD "", collection.getD ""⟩ ∧
      (initAccessor database collection dbNames collNames).errorLogged = false) := by
  constructor
  · intro h
    have hc : (!(pyTruthy database) || !(pyTruthy collection)) = true := by
      rcases h with h | h <;> simp [h]
    simp [initAccessor, hc]
  · intro hd hcoll
    simp [initAccessor, hd, hcoll]

/-- Witness for C9: a missing database name is rejected with `KeyError`,
and the source's own example names construct successfully. -/
theorem C9_init_validates_names_witness :
    (initAccessor none (some "students") [] []).result = Except.error "KeyError" ∧
    (initAccessor (some "local") (some "students") ["local"] ["students"]).result
      = Except.ok ⟨"local", "students"⟩ :=
  ⟨((C9_init_validates_names none (some "students") [] []).1 (Or.inl rfl)).1,
   ((C9_init_validates_names (some "local") (some "students") ["local"] ["students"]).2
      rfl rfl).1⟩

/-- C7 (code evaluated at the failing input): the source's collection
existence check is inverted — when the named collection IS present in the
database's collection list the warning is logged, and when it is absent no
warning is logged, the opposite of the claim (and of the warning's own
message text). -/
theorem C7_collection_warning_inverted :
    (initAccessor (some "local") (some "students") ["local"] ["students"]).collWarning
      = true ∧
    (initAccessor (some "local") (some "students") ["local"] []).collWarning = false ∧
    (initAccessor (some "local") (some "students") ["local"] []).result
      = Except.ok ⟨"local", "students"⟩ :=
  ⟨rfl, rfl, rfl⟩

/-! ### insert (src/MyMongodb.py lines 60-74) -/

/-- Driver call issued by `insert` after deduplication. -/
inductive DriverCall where
  | insertOne (r : Record)
  | insertMany (rs : List Record) (ordered : Bool)
deriving DecidableEq, Repr

/-- Embedding of `insert` (src lines 60-71): deduplicate, then dispatch on
whether exactly one record survived. -/
def insertCall (insert_data : List Record) (ordered : Bool) : DriverCall :=
  let d := removeDuplicates insert_data
  if h : d.length = 1 then DriverCall.insertOne (d.get ⟨0, by omega⟩)
  else DriverCall.insertMany d ordered

/-- Records carried by a driver insert call. -/
def callRecords : DriverCall → List Record
  | DriverCall.insertOne r => [r]
  | DriverCall.insertMany rs _ => rs

/-- Modelled from the driver's documented contract: `insert_one` appends its
record to the collection; `insert_many` refuses an empty batch (pymongo
raises `InvalidOperation("documents must be a non-empty list")`) and
otherwise appends the batch in order. -/
def execInsert (coll : List Record) (insert_data : List Record) (ordered : Bool) :
    Except String (List Record) :=
  match insertCall insert_data ordered with
  | DriverCall.insertOne r => Except.ok (coll ++ [r])
  | DriverCall.insertMany rs _ =>
      if rs.isEmpty then
        Except.error "InvalidOperation: documents must be a non-empty list"
      else Except.ok (coll ++ rs)

/-- C4: `insert` deduplicates its input by structural equality before any
driver call — the records carried by the issued call are exactly the
deduplicated, first-occurrence-ordered list — issuing a single-record insert
when exactly one record survives and otherwise a multi-record insert of the
survivors with the ordered flag passed through. -/
theorem C4_insert_dedups_then_dispatches (insert_data : List Record) (ordered : Bool) :
    callRecords (insertCall insert_data ordered) = removeDuplicates insert_data ∧
    (∀ r, removeDuplicates insert_data = [r] →
        insertCall insert_data ordered = DriverCall.insertOne r) ∧
    ((removeDuplicates insert_data).length ≠ 1 →
        insertCall insert_data ordered
          = DriverCall.insertMany (removeDuplicates insert_data) ordered) := by
  refine ⟨?_, ?_, ?_⟩
  · by_cases h : (removeDuplicates insert_data).length = 1
    · rcases List.length_eq_one.1 h with ⟨a, ha⟩
      simp [insertCall, ha, callRecords]
    · simp [insertCall, h, callRecords]
  · intro r hr
    simp [insertCall, hr, callRecords]
  · intro h
    simp [insertCall, h]

/-- Witness for C4: a duplicated single record collapses to one record, so a
single-record insert is issued for it. -/
theorem C4_insert_dedups_then_dispatches_witness :
    insertCall [student1, student1] false = DriverCall.insertOne student1 :=
  (C4_insert_dedups_then_dispatches [student1, student1] false).2.1 student1 (by decide)

/-- C10: for the empty input list `insert` performs no validation and no
silent no-op — deduplication returns the empty list, whose length differs
from 1, so the multi-record branch issues an insert of an empty batch, which
the driver layer rejects with an error instead of returning normally. -/
theorem C10_insert_empty_list_fails_in_driver (coll : List Record) (ordered : Bool) :
    removeDuplicates ([] : List Record) = [] ∧
    insertCall [] ordered = DriverCall.insertMany [] ordered ∧
    execInsert coll [] ordered
      = Except.error "InvalidOperation: documents must be a non-empty list" :=
  ⟨rfl, rfl, rfl⟩

/-! ### delete and update (src/MyMongodb.py lines 134-165)

Both methods dispatch on the impact-scope token, run only a log statement on
an unrecognized token, and log a success line behind `if results:` (a driver
result object is always truthy).  The driver-side effect of
`delete_many`/`delete_one`/`update_many`/`update_one` on the collection is
modelled from its documented contract; the driver raises nothing on these
well-formed calls, so each embedded method is `Except.ok` of a pure core. -/

/-- Observable outcome of `delete`: the collection after the call, the
driver's deleted count (absent when no driver call was made), and the
logging side effects. -/
structure DeleteOutcome where
  coll : List Record
  deletedCount : Option Nat
  errorLogged : Bool
  infoLine : Option String
deriving DecidableEq, Repr

/-- Modelled from the driver contract: `delete_one` removes the first record
matching the filter, if any. -/
def deleteOneMatch (f : Filter) : List Record → List Record
  | [] => []
  | r :: rest => if matchesFilter f r then rest else r :: deleteOneMatch f rest

/-- Embedding of `delete` (src lines 134-148): `delete_many` for "all",
`delete_one` for "single", otherwise an error log and no driver call; the
success log fills the one `%d` of its format with the deleted count. -/
def deleteCore (coll : List Record) (filter : Filter) (impact_data : String) :
    DeleteOutcome :=
  if impact_data = "all" then
    let n := coll.countP (matchesFilter filter)
    { coll := coll.filter (fun r => !(matchesFilter filter r)),
      deletedCount := some n, errorLogged := false,
      infoLine := logRender deleteInfoFmt [n] }
  else if impact_data = "single" then
    let remaining := deleteOneMatch filter coll
    let n := coll.length - remaining.length
    { coll := remaining, deletedCount := some n, errorLogged := false,
      infoLine := logRender deleteInfoFmt [n] }
  else
    { coll := coll, deletedCount := none, errorLogged := true, infoLine := none }

/-- The `delete` method never raises on its own: every branch returns
normally. -/
def delete (coll : List Record) (filter : Filter) (impact_data : String) :
    Except String DeleteOutcome :=
  Except.ok (deleteCore coll filter impact_data)

/-- Update operator document (`$set` / `$inc`, the operators named by the
source's docstring). -/
inductive UpdateSpec where
  | set (k : String) (v : Value)
  | inc (k : String) (n : Int)
deriving DecidableEq, Repr

/-- Setting field `k` of a record to `v`, creating the field if absent. -/
def setField (k : String) (v : Value) : Record → Record
  | [] => [(k, v)]
  | (k', v') :: rest => if k' = k then (k, v) :: rest else (k', v') :: setField k v rest

/-- Modelled from the driver contract: application of an update operator
document to a record (`$set` sets or creates the field; `$inc` adds to an
integer field, creating it when missing; `$inc` on a non-integer value is a
server-side error outside the scope of the claims, modelled as no change). -/
def applyUpdate (u : UpdateSpec) (r : Record) : Record :=
  match u with
  | UpdateSpec.set k v => setField k v r
  | UpdateSpec.inc k n =>
      match lookupField r k with
      | some (Value.int m) => setField k (Value.int (m + n)) r
      | some _ => r
      | none => setField k (Value.int n) r

/-- Modelled from the driver contract: `update_one` rewrites the first record
matching the filter, if any. -/
def updateOneMatch (f : Filter) (u : UpdateSpec) : List Record → List Record
  | [] => []
  | r :: rest =>
      if matchesFilter f r then applyUpdate u r :: rest
      else r :: updateOneMatch f u rest

/-- Observable outcome of `update`: the collection after the call, the
driver's matched/modified counts (absent when no driver call was made), and
the logging side effects. -/
structure UpdateOutcome where
  coll : List Record
  matchedCount : Option Nat
  modifiedCount : Option Nat
  errorLogged : Bool
  infoLine : Option String
deriving DecidableEq, Repr

/-- Embedding of `update` (src lines 150-165): `update_many` for "all",
`update_one` for "single", otherwise an error log and no driver call.  The
success log call passes only `results.matched_count` to a format string with
two `%d` placeholders — exactly as the source does on line 165. -/
def updateCore (coll : List Record) (filter : Filter) (update_doc : UpdateSpec)
    (impact_data : String) : UpdateOutcome :=
  if impact_data = "all" then
    let matched := coll.countP (matchesFilter filter)
    { coll := coll.map (fun r => if matchesFilter filter r then applyUpdate update_doc r else r),
      matchedCount := some matched,
      modifiedCount := some (coll.countP (fun r =>
        matchesFilter filter r && !(decide (applyUpdate update_doc r = r)))),
      errorLogged := false,
      infoLine := logRender updateInfoFmt [matched] }
  else if impact_data = "single" then
    let matched := if coll.any (matchesFilter filter) then 1 else 0
    let modified :=
      match coll.find? (matchesFilter filter) with
      | some r => if applyUpdate update_doc r = r then 0 else 1
      | none => 0
    { coll := updateOneMatch filter update_doc coll,
      matchedCount := some matched, modifiedCount := some modified,
      errorLogged := false,
      infoLine := logRender updateInfoFmt [matched] }
  else
    { coll := coll, matchedCount := none, modifiedCount := none,
      errorLogged := true, infoLine := none }

/-- The `update` method never raises on its own: every branch returns
normally. -/
def update (coll : List Record) (filter : Filter) (update_doc : UpdateSpec)
    (impact_data : String) : Except String UpdateOutcome :=
  Except.ok (updateCore coll filter update_doc impact_data)

/-- Number of positions at which two collection snapshots of equal length
differ; used to bound how many records an operation touched. -/
def changedCount (xs ys : List Record) : Nat :=
  (xs.zip ys).countP (fun p => !(decide (p.1 = p.2)))

lemma changedCount_self (xs : List Record) : changedCount xs xs = 0 := by
  induction xs with
  | nil => rfl
  | cons x rest ih =>
    simp only [changedCount, List.zip_cons_cons, List.countP_cons] at *
    simp [ih]

lemma changedCount_updateOneMatch (f : Filter) (u : UpdateSpec) :
    ∀ coll : List Record, changedCount coll (updateOneMatch f u coll) ≤ 1 := by
  intro coll
  induction coll with
  | nil => simp [changedCount, updateOneMatch]
  | cons r rest ih =>
    by_cases h : matchesFilter f r
    · simp only [updateOneMatch, if_pos h, changedCount, List.zip_cons_cons,
        List.countP_cons]
      have h0 : changedCount rest rest = 0 := changedCount_self rest
      simp only [changedCount] at h0
      rw [h0]
      split <;> omega
    · simp only [updateOneMatch, if_neg h, changedCount, List.zip_cons_cons,
        List.countP_cons]
      simpa [changedCount] using ih

lemma deleteOneMatch_length (f : Filter) :
    ∀ coll : List Record, coll.length ≤ (deleteOneMatch f coll).length + 1 := by
  intro coll
  induction coll with
  | nil => simp [deleteOneMatch]
  | cons r rest ih =>
    by_cases h : matchesFilter f r
    · simp [deleteOneMatch, h]
    · simp only [deleteOneMatch, if_neg h, List.length_cons]
      omega

/-- C3: an impact-scope token outside {"single","all"} makes both `delete`
and `update` log an error, skip the driver call entirely (collection
unchanged, no result counts) and return normally without raising; the
"single" scope affects at most one record (length drops by at most one on
delete, at most one position changes on update) and the "all" scope affects
every matching record (all matches removed on delete, every match rewritten
by the update document on update). -/
theorem C3_impact_scope_policy (coll : List Record) (f : Filter) (u : UpdateSpec)
    (tok : String) (h1 : tok ≠ "all") (h2 : tok ≠ "single") :
    delete coll f tok
        = Except.ok { coll := coll, deletedCount := none,
                      errorLogged := true, infoLine := none } ∧
    update coll f u tok
        = Except.ok { coll := coll, matchedCount := none, modifiedCount := none,
                      errorLogged := true, infoLine := none } ∧
    (deleteCore coll f "single").coll = deleteOneMatch f coll ∧
    coll.length ≤ (deleteCore coll f "single").coll.length + 1 ∧
    (deleteCore coll f "all").coll = coll.filter (fun r => !(matchesFilter f r)) ∧
    (updateCore coll f u "single").coll = updateOneMatch f u coll ∧
    changedCount coll (updateCore coll f u "single").coll ≤ 1 ∧
    (updateCore coll f u "all").coll
      = coll.map (fun r => if matchesFilter f r then applyUpdate u r else r) := by
  refine ⟨?_, ?_, rfl, deleteOneMatch_length f coll, rfl, rfl,
    changedCount_updateOneMatch f u coll, rfl⟩
  · simp [delete, deleteCore, h1, h2]
  · simp [update, updateCore, h1, h2]

/-- Witness for C3 at the unrecognized token "bogus" with the source's
example filter and an update document, on the two-student collection. -/
theorem C3_impact_scope_policy_witness :
    delete [student1, student2] ⟨"age", FilterCond.op "$gt" (Value.int 20)⟩ "bogus"
      = Except.ok { coll := [student1, student2], deletedCount := none,
                    errorLogged := true, infoLine := none } :=
  (C3_impact_scope_policy [student1, student2]
    ⟨"age", FilterCond.op "$gt" (Value.int 20)⟩
    (UpdateSpec.set "age" (Value.int 1)) "bogus" (by decide) (by decide)).1

lemma logRender_update_fmt_one_arg (m : Nat) : logRender updateInfoFmt [m] = none := by
  have h2 : countPD updateInfoFmt.data = 2 := rfl
  simp [logRender, h2]

/-- C8 (code evaluated at the failing input): on a successful update the
source passes a single argument (`results.matched_count`) to a success
format string holding two `%d` placeholders, so the informational line
announcing matched and modified counts is never emitted — for any update, on
either valid scope — even though the driver reports the counts (here matched
1, modified 1). -/
theorem C8_update_success_log_is_malformed :
    countPD updateInfoFmt.data = 2 ∧
    (∀ (coll : List Record) (f : Filter) (u : UpdateSpec),
        (updateCore coll f u "all").infoLine = none ∧
        (updateCore coll f u "single").infoLine = none) ∧
    (updateCore [student1, student2] ⟨"age", FilterCond.op "$gt" (Value.int 20)⟩
        (UpdateSpec.set "age" (Value.int 1)) "all").matchedCount = some 1 ∧
    (updateCore [student1, student2] ⟨"age", FilterCond.op "$gt" (Value.int 20)⟩
        (UpdateSpec.set "age" (Value.int 1)) "all").modifiedCount = some 1 ∧
    (updateCore [student1, student2] ⟨"age", FilterCond.op "$gt" (Value.int 20)⟩
        (UpdateSpec.set "age" (Value.int 1)) "all").infoLine = none := by
  refine ⟨rfl, fun coll f u => ⟨?_, ?_⟩, rfl, rfl, rfl⟩
  · exact logRender_update_fmt_one_arg (coll.countP (matchesFilter f))
  · exact logRender_update_fmt_one_arg (if coll.any (matchesFilter f) then 1 else 0)

end MyMongodb
